import Mathlib

/-!
Verification of the parsing and normalization pipeline of the Track & Field
records application (PHP scraper `api/scraper.php` and TypeScript normalizer
`src/services/api.ts`).

Strings are modelled as lists of characters (`Str`).  JavaScript numbers are
modelled exactly: integer-producing operations return `Option Int` and
float-producing operations return `Option ℚ`, where `none` stands for `NaN`
and `some q` for the exact value `q`.  The numeric literals appearing in the
data (decimal times, winds, dates) are exactly representable, so `ℚ` is a
faithful carrier; the embedding does not model `Infinity`, hexadecimal or
exponent notation, which cannot be produced by any of the modelled call
sites' inputs of interest.
-/

namespace TF

/-- Character strings, modelled as lists of characters. -/
abbrev Str := List Char

/-- Coerce a Lean string literal to the `Str` model. -/
def str (s : String) : Str := s.data

/-- ASCII decimal digit test (the `\d` class and the digit set accepted by
`parseInt`/`parseFloat`). -/
def isDigitC (c : Char) : Bool := 48 ≤ c.toNat && c.toNat ≤ 57

/-- Numeric value of an ASCII digit character. -/
def digitVal (c : Char) : Nat := c.toNat - 48

/-- Value of a string of decimal digits, most significant first. -/
def digitsToNat (l : Str) : Nat := l.foldl (fun n c => 10 * n + digitVal c) 0

/-- Whitespace skipped by JavaScript `parseInt`/`parseFloat`
(space, tab, LF, VT, FF, CR, NBSP). -/
def isJsWS (c : Char) : Bool :=
  c.toNat == 32 || c.toNat == 9 || c.toNat == 10 || c.toNat == 13 ||
  c.toNat == 11 || c.toNat == 12 || c.toNat == 160

/-- Whitespace skipped by PHP's numeric string conversion
(space, tab, LF, CR, VT, FF). -/
def isPhpWS (c : Char) : Bool :=
  c.toNat == 32 || c.toNat == 9 || c.toNat == 10 || c.toNat == 13 ||
  c.toNat == 11 || c.toNat == 12

/-- Longest leading run of decimal digits, as a number; `none` when there is
no leading digit. -/
def leadingDigits (l : Str) : Option Nat :=
  let ds := l.takeWhile isDigitC
  if ds.isEmpty then none else some (digitsToNat ds)

/-- Models JavaScript `parseInt(s, 10)`: skip leading whitespace, read an
optional sign and then a maximal run of decimal digits; `none` (= `NaN`)
when no digit follows. -/
def jsParseInt (s : Str) : Option Int :=
  match s.dropWhile isJsWS with
  | [] => none
  | c :: r =>
    if c = '+' then (leadingDigits r).map (fun n => (n : Int))
    else if c = '-' then (leadingDigits r).map (fun n => -(n : Int))
    else (leadingDigits (c :: r)).map (fun n => (n : Int))

/-- Unsigned decimal float body `digits [. digits]` read as a prefix:
the value of the longest valid prefix, `none` when no digit is present in
either part.  The exact value `ip + fp / 10^|fp|` is produced as a single
`mkRat` over integer arithmetic. -/
def floatBody (l : Str) : Option ℚ :=
  let ip := l.takeWhile isDigitC
  match l.dropWhile isDigitC with
  | '.' :: fr =>
    let fp := fr.takeWhile isDigitC
    if ip.isEmpty && fp.isEmpty then none
    else some (mkRat (digitsToNat ip * 10 ^ fp.length + digitsToNat fp) (10 ^ fp.length))
  | _ => if ip.isEmpty then none else some (mkRat (digitsToNat ip) 1)

/-- Decimal-float prefix lexer shared by the JavaScript and PHP models:
skip leading whitespace, optional sign, then `floatBody`. -/
def floatLex (ws : Char → Bool) (s : Str) : Option ℚ :=
  match s.dropWhile ws with
  | [] => none
  | c :: r =>
    if c = '+' then floatBody r
    else if c = '-' then (floatBody r).map (fun q => -q)
    else floatBody (c :: r)

/-- Models JavaScript `parseFloat(s)` on its decimal fragment
(`none` = `NaN`). -/
def jsParseFloat (s : Str) : Option ℚ := floatLex isJsWS s

/-- Models PHP `floatval($s)`: like the float lexer but unparseable input
yields `0.0`. -/
def phpFloatval (s : Str) : ℚ := (floatLex isPhpWS s).getD 0

/-- Split on every occurrence of a single separator character; models
JavaScript `s.split(sep)` and PHP `explode(sep, s)` for one-character
separators.  The empty string yields `[""]`. -/
def splitCh (sep : Char) : Str → List Str
  | [] => [[]]
  | c :: t =>
    if c = sep then [] :: splitCh sep t
    else
      match splitCh sep t with
      | [] => [[c]]
      | h :: r => (c :: h) :: r

/-- Models `parseTimeToSeconds` from `src/services/api.ts` lines 28-43:
split on `:`; three parts are hours/minutes/seconds, two parts are
minutes/seconds, anything else falls back to `parseFloat(timeStr) || 0`.
`none` models a `NaN` result. -/
def parseTimeToSeconds (s : Str) : Option ℚ :=
  let parts := splitCh ':' s
  if parts.length = 3 then
    match jsParseInt (parts.getD 0 []), jsParseInt (parts.getD 1 []),
          jsParseFloat (parts.getD 2 []) with
    | some h, some m, some sec => some ((h : ℚ) * 3600 + (m : ℚ) * 60 + sec)
    | _, _, _ => none
  else if parts.length = 2 then
    match jsParseInt (parts.getD 0 []), jsParseFloat (parts.getD 1 []) with
    | some m, some sec => some ((m : ℚ) * 60 + sec)
    | _, _ => none
  else some ((jsParseFloat s).getD 0)

/-- Models `parseDateToDays` from `src/services/api.ts` lines 48-61:
empty string and strings that do not split into exactly three `.`-parts
yield `0`; otherwise `year * 12 * 30 + month * 30 + day`, where a
non-numeric part makes the result `NaN` (`none`). -/
def parseDateToDays (s : Str) : Option Int :=
  if s.isEmpty then some 0
  else
    let parts := splitCh '.' s
    if parts.length ≠ 3 then some 0
    else
      match jsParseInt (parts.getD 0 []), jsParseInt (parts.getD 1 []),
            jsParseInt (parts.getD 2 []) with
      | some d, some m, some y => some (y * 12 * 30 + m * 30 + d)
      | _, _, _ => none

/-- Models `calculateAge` from `src/services/api.ts` lines 66-74: the pair
`(ageValue, ageYears)` with `ageValue = eventDays - birthDays` and
`ageYears = Math.floor(ageValue / 360)`; `NaN` propagates. -/
def calculateAge (birth event : Str) : Option Int × Option Int :=
  let ageValue :=
    match parseDateToDays event, parseDateToDays birth with
    | some e, some b => some (e - b)
    | _, _ => none
  (ageValue, ageValue.map (fun v => Int.fdiv v 360))

/-- Decimal rendering of a natural number (fuel-based so that it reduces in
the kernel); models JavaScript template-string rendering of an integer. -/
def natToCharsAux : Nat → Nat → Str → Str
  | 0, _, acc => acc
  | f + 1, n, acc =>
    let acc := Char.ofNat (48 + n % 10) :: acc
    if n < 10 then acc else natToCharsAux f (n / 10) acc

/-- Decimal rendering of a natural number. -/
def natToChars (n : Nat) : Str := natToCharsAux (n + 1) n []

/-- Decimal rendering of an integer. -/
def intToChars (n : Int) : Str :=
  if n < 0 then '-' :: natToChars n.natAbs else natToChars n.toNat

/-- Models the birth-date century resolution inside `transformRecord`
(`src/services/api.ts` lines 81-87): when the date splits into three
`.`-parts and the third has exactly two characters, replace the year part
by `1900+YY` when `YY > 30` and `2000+YY` otherwise.  A non-numeric year
part makes `parseInt` return `NaN` and the template string renders `"NaN"`. -/
def resolveDob (dob : Str) : Str :=
  match splitCh '.' dob with
  | [p0, p1, p2] =>
    if p2.length = 2 then
      match jsParseInt p2 with
      | some y =>
        let fullYear : Int := if 30 < y then 1900 + y else 2000 + y
        p0 ++ '.' :: p1 ++ '.' :: intToChars fullYear
      | none => p0 ++ '.' :: p1 ++ '.' :: str "NaN"
    else dob
  | _ => dob

/-- Models the JavaScript expression `x || y` where `x` is a `parseInt`
result: `NaN` and `0` are falsy. -/
def jsOrInt (a : Option Int) (b : Int) : Int :=
  match a with
  | some v => if v = 0 then b else v
  | none => b

/-- The raw per-record shape produced by the PHP scraper and consumed by the
normalizer (`ApiRecord` in `src/types/index.ts`; `wind` is always emitted by
the scraper, possibly empty). -/
structure ApiRecord where
  rank : Str
  time : Str
  wind : Str
  athlete : Str
  country : Str
  dob : Str
  position : Str
  location : Str
  date : Str
deriving DecidableEq, Repr

/-- The normalized record shape (`AthleteRecord` in `src/types/index.ts`).
Fields that JavaScript can compute as `NaN` are `Option`-valued. -/
structure AthleteRecord where
  rank : Int
  time : Str
  timeSeconds : Option ℚ
  wind : Str
  name : Str
  country : Str
  birthDate : Str
  position : Str
  city : Str
  date : Str
  dateValue : Option Int
  ageValue : Option Int
  ageYears : Option Int
deriving DecidableEq, Repr

/-- Models `transformRecord` from `src/services/api.ts` lines 79-106.
`wind: apiRecord.wind || ''` is the identity on strings (empty stays
empty), so it is modelled as the plain field. -/
def transformRecord (r : ApiRecord) (index : Nat) : AthleteRecord :=
  let fullDob := resolveDob r.dob
  let age := calculateAge fullDob r.date
  { rank := jsOrInt (jsParseInt r.rank) ((index : Int) + 1)
    time := r.time
    timeSeconds := parseTimeToSeconds r.time
    wind := r.wind
    name := r.athlete
    country := r.country
    birthDate := fullDob
    position := r.position
    city := r.location
    date := r.date
    dateValue := parseDateToDays r.date
    ageValue := age.1
    ageYears := age.2 }

/-- The property names of the object literal returned by `transformRecord`
(`src/services/api.ts` lines 91-105), in source order. -/
def transformRecordFields : List String :=
  ["rank", "time", "timeSeconds", "wind", "name", "country", "birthDate",
   "position", "city", "date", "dateValue", "ageValue", "ageYears"]

/-- Models `fetchEventData`'s normalization step
(`src/services/api.ts` line 22): `records.map((record, index) =>
transformRecord(record, index))`, with the running index made explicit. -/
def normalizeFrom (i : Nat) : List ApiRecord → List AthleteRecord
  | [] => []
  | r :: rs => transformRecord r i :: normalizeFrom (i + 1) rs

/-- Normalization of a whole record list, indices starting at 0. -/
def normalizeAll (rs : List ApiRecord) : List AthleteRecord := normalizeFrom 0 rs

/-- Characters stripped by PHP `trim` with its default mask
(space, tab, LF, CR, NUL, VT). -/
def phpTrimChar (c : Char) : Bool :=
  c.toNat == 32 || c.toNat == 9 || c.toNat == 10 || c.toNat == 13 ||
  c.toNat == 0 || c.toNat == 11

/-- Models PHP `trim($s)`. -/
def phpTrim (s : Str) : Str :=
  ((s.dropWhile phpTrimChar).reverse.dropWhile phpTrimChar).reverse

/-- Models PHP `empty($s)` on a string: true exactly for `""` and `"0"`. -/
def phpEmpty (s : Str) : Bool := s.isEmpty || s == ['0']

/-- Case-folded string (ASCII lowercasing), used to model the
case-insensitive PHP search `stripos`. -/
def lcStr (s : Str) : Str := s.map Char.toLower

/-- Does `s` start (case-insensitively) with `pat`? -/
def ciMatchHead (pat s : Str) : Bool := lcStr (s.take pat.length) == lcStr pat

/-- Models PHP `stripos($s, $pat)`: position of the first case-insensitive
occurrence of `pat` in `s`, `none` when absent. -/
def striposFind (pat : Str) : Str → Option Nat
  | [] => if ciMatchHead pat [] then some 0 else none
  | c :: t =>
    if ciMatchHead pat (c :: t) then some 0
    else (striposFind pat t).map (fun n => n + 1)

/-- Models `stripos($s, $pat) !== false`. -/
def containsCIB (pat s : Str) : Bool := (striposFind pat s).isSome

/-- Specification-side statement that `pat` occurs case-insensitively
somewhere in `s`. -/
def OccursCI (pat s : Str) : Prop :=
  ∃ i, lcStr ((s.drop i).take pat.length) = lcStr pat

/-- Whitespace of the PCRE `\s` class (space, tab, LF, CR, FF, VT), used by
the scraper's `preg_split('/\s{2,}/', ...)`. -/
def isPregWS (c : Char) : Bool :=
  c.toNat == 32 || c.toNat == 9 || c.toNat == 10 || c.toNat == 13 ||
  c.toNat == 12 || c.toNat == 11

/-- Scanner for `preg_split('/\s{2,}/', $line)`.  `cur` is the current
token and `ws` the pending whitespace run, both in reversed order.  A
pending run of length at least 2 is a separator: it closes the current
token; a single pending whitespace character stays inside the token. -/
def sws2Aux : Str → Str → Str → List Str
  | [], cur, ws =>
    if 2 ≤ ws.length then [cur.reverse, []]
    else [(ws ++ cur).reverse]
  | c :: t, cur, ws =>
    if isPregWS c then sws2Aux t cur (c :: ws)
    else if 2 ≤ ws.length then cur.reverse :: sws2Aux t [c] []
    else sws2Aux t (c :: (ws ++ cur)) []

/-- Models `preg_split('/\s{2,}/', $line)`: split on maximal runs of two or
more whitespace characters (a single whitespace character stays inside its
token). -/
def splitWS2 (s : Str) : List Str := sws2Aux s [] []

/-- The structural/noise characters rejected at line start by
`preg_match('/^[+#*=-]/', $line)` in `parseHtml`. -/
def noiseChars : List Char := ['+', '#', '*', '=', '-']

/-- Does the line start with one of the noise characters? -/
def startsNoise : Str → Bool
  | [] => false
  | c :: _ => decide (c ∈ noiseChars)

/-- Models `preg_match('/^\d+$/', $s)`: nonempty and all decimal digits. -/
def allDigits1 (s : Str) : Bool := !s.isEmpty && s.all isDigitC

/-- The token sequence of a line: trim the line, split on runs of two or
more whitespace characters, and drop tokens that trim to the empty string
(`scraper.php` lines 165 and 175-178). -/
def lineTokens (rawLine : Str) : List Str :=
  (splitWS2 (phpTrim rawLine)).filter (fun p => !(phpTrim p).isEmpty)

/-- Models `preg_replace('/[^0-9.\-]/', '', $s)`: keep only digits, `.`
and `-`. -/
def stripNonNum (s : Str) : Str :=
  s.filter (fun c => isDigitC c || c == '.' || c == '-')

/-- Strip one optional leading sign character (`+`, `-` or `±`). -/
def stripSign : Str → Str
  | [] => []
  | c :: t => if c = '+' || c = '-' || c = '±' then t else c :: t

/-- Models the wind-shape test `preg_match('/^[+\-\x{00B1}]?\d*\.?\d+$/u',
$s)`: an optional sign, an optional run of digits, an optional decimal
point, and at least one digit, spanning the whole string. -/
def windPatB (s : Str) : Bool :=
  let r := stripSign s
  match r.dropWhile isDigitC with
  | [] => !(r.takeWhile isDigitC).isEmpty
  | c :: t => c == '.' && (!t.isEmpty && t.all isDigitC)

/-- Models the wind decision of `parseHtml` (`scraper.php` lines 186-198):
at least 9 tokens, `parts[2]` (trimmed) matches the wind shape, and the
magnitude of `floatval` of its sign-stripped digits is at most 10. -/
def hasWind (parts : List Str) : Bool :=
  let pw := phpTrim (parts.getD 2 [])
  decide (9 ≤ parts.length) && windPatB pw &&
    decide (|phpFloatval (stripNonNum pw)| ≤ 10)

/-- Models the record construction of `parseHtml` (`scraper.php` lines
201-213): field indices shift by 1 when a wind reading is present; a
missing index yields the empty string. -/
def mkRecord (parts : List Str) : ApiRecord :=
  let off := if hasWind parts then 1 else 0
  { rank := phpTrim (parts.getD 0 [])
    time := phpTrim (parts.getD 1 [])
    wind := if hasWind parts then phpTrim (parts.getD 2 []) else []
    athlete := phpTrim (parts.getD (2 + off) [])
    country := phpTrim (parts.getD (3 + off) [])
    dob := phpTrim (parts.getD (4 + off) [])
    position := phpTrim (parts.getD (5 + off) [])
    location := phpTrim (parts.getD (6 + off) [])
    date := phpTrim (parts.getD (7 + off) []) }

/-- Models one iteration of the line loop of `parseHtml` (`scraper.php`
lines 164-214): `some record` when the line is accepted, `none` when any
of the skip conditions or shape validations fires. -/
def lineToRecord (rawLine : Str) : Option ApiRecord :=
  let line := phpTrim rawLine
  if phpEmpty line then none
  else if startsNoise line then none
  else if containsCIB (str "indoor") line then none
  else if containsCIB (str "oversized") line then none
  else if containsCIB (str "intermediate") line then none
  else if 8 ≤ (lineTokens rawLine).length then
    if allDigits1 (phpTrim ((lineTokens rawLine).getD 0 [])) then
      some (mkRecord (lineTokens rawLine))
    else none
  else none

/-- Result shape of `parseHtml`: success flag, optional error message and
the record list (the `count` and `fetched_at` bookkeeping fields carry no
information beyond these). -/
structure ParseResult where
  success : Bool
  error : Option Str
  records : List ApiRecord
deriving DecidableEq, Repr

/-- The error message of `parseHtml` when the opening marker is missing. -/
def noPreMsg : Str := str "No PRE tag found in HTML"

/-- Content slice of `parseHtml` (`scraper.php` lines 150-156): everything
after the `<PRE>` marker found at `prePos`, cut at the first
case-insensitive `</BODY>` when present. -/
def sliceAfterPre (html : Str) (prePos : Nat) : Str :=
  let content := html.drop (prePos + 5)
  match striposFind (str "</BODY>") content with
  | some endPos => content.take endPos
  | none => content

/-- One iteration of the record-accumulation loop of `parseHtml`
(`$records[] = ...` guarded by the line checks): append the parsed record
when the line is accepted, keep the accumulator otherwise. -/
def appendRecord (acc : List ApiRecord) (l : Str) : List ApiRecord :=
  match lineToRecord l with
  | some r => acc ++ [r]
  | none => acc

/-- Models `parseHtml` (`scraper.php` lines 135-223).  PHP's
`html_entity_decode` is abstracted as the parameter `decode`; the verified
claims hold for every decoding function.  The accepted records are
appended one by one (`$records[] = ...`) in line order. -/
def parseHtml (decode : Str → Str) (html : Str) : ParseResult :=
  match striposFind (str "<PRE>") html with
  | none => { success := false, error := some noPreMsg, records := [] }
  | some prePos =>
    let lines := splitCh '\n' (decode (sliceAfterPre html prePos))
    { success := true
      error := none
      records := lines.foldl appendRecord [] }

/-! Specification-side definitions, written from the wording of the claims
(used to compare the code-derived definitions above against the spec). -/

/-- Specification wording of the (amended) time-parsing contract: split on
`:`; three parts are hours/minutes/seconds and two parts are
minutes/seconds, `NaN` when a component is unparseable; otherwise the raw
float value of the string, with unparseable numeric content yielding 0. -/
def timeSpecAmended (s : Str) : Option ℚ :=
  match splitCh ':' s with
  | [h, m, sec] =>
    match jsParseInt h, jsParseInt m, jsParseFloat sec with
    | some a, some b, some c => some ((a : ℚ) * 3600 + (b : ℚ) * 60 + c)
    | _, _, _ => none
  | [m, sec] =>
    match jsParseInt m, jsParseFloat sec with
    | some b, some c => some ((b : ℚ) * 60 + c)
    | _, _ => none
  | _ => some ((jsParseFloat s).getD 0)

/-- Date `A = (dayA, monthA)` denotes an earlier calendar date than
`B = (dayB, monthB)` within the same year. -/
def dateEarlierSameYear (dayA monthA dayB monthB : Nat) : Prop :=
  monthA < monthB ∨ (monthA = monthB ∧ dayA < dayB)

/-- Specification wording of the wind-shape pattern: an optional sign
(`+`, `-` or `±`), an optional integer part, an optional decimal point,
and digits, spanning the whole string. -/
def WindPatSpec (s : Str) : Prop :=
  ∃ sgn ds1 ds2 : Str,
    (sgn = [] ∨ sgn = ['+'] ∨ sgn = ['-'] ∨ sgn = ['±']) ∧
    (∀ c ∈ ds1, isDigitC c = true) ∧
    ds2 ≠ [] ∧ (∀ c ∈ ds2, isDigitC c = true) ∧
    (s = sgn ++ ds2 ∨ s = sgn ++ ds1 ++ '.' :: ds2)

/-- Specification wording of the (amended) line-acceptance contract: the
trimmed line is nonempty and not the literal `"0"`, does not start with a
structural/noise character, contains no case-insensitive noise keyword,
tokenizes into at least 8 tokens, and the first token trims to a nonempty
all-digit string. -/
def AcceptSpec (rawLine : Str) : Prop :=
  phpTrim rawLine ≠ [] ∧ phpTrim rawLine ≠ ['0'] ∧
  (∀ c t, phpTrim rawLine = c :: t → c ∉ noiseChars) ∧
  ¬ OccursCI (str "indoor") (phpTrim rawLine) ∧
  ¬ OccursCI (str "oversized") (phpTrim rawLine) ∧
  ¬ OccursCI (str "intermediate") (phpTrim rawLine) ∧
  8 ≤ (lineTokens rawLine).length ∧
  phpTrim ((lineTokens rawLine).getD 0 []) ≠ [] ∧
  (∀ c ∈ phpTrim ((lineTokens rawLine).getD 0 []), isDigitC c = true)

end TF

namespace TF

lemma digit_not_jsws {c : Char} (h : isDigitC c = true) : isJsWS c = false := by
  simp only [isDigitC, Bool.and_eq_true, decide_eq_true_eq] at h
  simp only [isJsWS, Bool.or_eq_false_iff, beq_eq_false_iff_ne, ne_eq]
  omega

lemma digit_ne_of_code {c d : Char} (h : isDigitC c = true)
    (hd : isDigitC d = false) : c ≠ d := by
  intro e
  subst e
  rw [h] at hd
  simp at hd

lemma takeWhile_all {p : Char → Bool} {l : Str} (h : ∀ c ∈ l, p c = true) :
    l.takeWhile p = l :=
  List.takeWhile_eq_self_iff.mpr h

lemma dropWhile_all {p : Char → Bool} {l : Str} (h : ∀ c ∈ l, p c = true) :
    l.dropWhile p = [] :=
  List.dropWhile_eq_nil_iff.mpr h

lemma jsParseInt_digits {l : Str} (h0 : l ≠ []) (h : ∀ c ∈ l, isDigitC c = true) :
    jsParseInt l = some ((digitsToNat l : Int)) := by
  obtain ⟨c, t, rfl⟩ := List.exists_cons_of_ne_nil h0
  have hc : isDigitC c = true := h c (List.mem_cons_self c t)
  have hdrop : (c :: t).dropWhile isJsWS = c :: t := by
    rw [List.dropWhile_cons, digit_not_jsws hc]
    simp
  have hplus : c ≠ '+' := digit_ne_of_code hc (by decide)
  have hminus : c ≠ '-' := digit_ne_of_code hc (by decide)
  simp only [jsParseInt, hdrop, if_neg hplus, if_neg hminus, leadingDigits,
    takeWhile_all h]
  simp

end TF

namespace TF

lemma splitCh_eq_single {sep : Char} {a : Str} (h : sep ∉ a) :
    splitCh sep a = [a] := by
  induction a with
  | nil => rfl
  | cons c t ih =>
    have hc : c ≠ sep := fun e => h (e ▸ List.mem_cons_self c t)
    have ht : sep ∉ t := fun m => h (List.mem_cons_of_mem c m)
    simp only [splitCh, if_neg hc, ih ht]

lemma splitCh_append {sep : Char} {a r : Str} (h : sep ∉ a) :
    splitCh sep (a ++ sep :: r) = a :: splitCh sep r := by
  induction a with
  | nil => simp [splitCh]
  | cons c t ih =>
    have hc : c ≠ sep := fun e => h (e ▸ List.mem_cons_self c t)
    have ht : sep ∉ t := fun m => h (List.mem_cons_of_mem c m)
    simp only [List.cons_append, splitCh, if_neg hc, List.append_eq, ih ht]

lemma not_dot_mem_of_digits {l : Str} (h : ∀ c ∈ l, isDigitC c = true) :
    '.' ∉ l := by
  intro m
  have := h '.' m
  simp [isDigitC] at this

lemma parseDateToDays_digits {d m y : Str}
    (hd0 : d ≠ []) (hd : ∀ c ∈ d, isDigitC c = true)
    (hm0 : m ≠ []) (hm : ∀ c ∈ m, isDigitC c = true)
    (hy0 : y ≠ []) (hy : ∀ c ∈ y, isDigitC c = true) :
    parseDateToDays (d ++ '.' :: m ++ '.' :: y) =
      some ((digitsToNat y : Int) * 360 + (digitsToNat m : Int) * 30 +
        (digitsToNat d : Int)) := by
  have hsplit : splitCh '.' (d ++ '.' :: m ++ '.' :: y) = [d, m, y] := by
    rw [show (d ++ '.' :: m ++ '.' :: y) = d ++ '.' :: (m ++ '.' :: y) by simp,
      splitCh_append (not_dot_mem_of_digits hd),
      splitCh_append (not_dot_mem_of_digits hm),
      splitCh_eq_single (not_dot_mem_of_digits hy)]
  have hne : (d ++ '.' :: m ++ '.' :: y).isEmpty = false := by
    obtain ⟨c, t, rfl⟩ := List.exists_cons_of_ne_nil hd0
    rfl
  simp only [parseDateToDays, hne, Bool.false_eq_true, if_false, hsplit]
  simp only [List.length_cons, List.length_nil, List.getD, List.get?,
    jsParseInt_digits hd0 hd, jsParseInt_digits hm0 hm, jsParseInt_digits hy0 hy]
  norm_num [jsParseInt_digits hd0 hd, jsParseInt_digits hm0 hm, jsParseInt_digits hy0 hy]
  ring

end TF

namespace TF

lemma ciMatchHead_iff {pat s : Str} :
    ciMatchHead pat s = true ↔ lcStr (s.take pat.length) = lcStr pat := by
  simp [ciMatchHead]

lemma striposFind_isSome_iff (pat : Str) : ∀ s : Str,
    (striposFind pat s).isSome = true ↔ OccursCI pat s := by
  intro s
  induction s with
  | nil =>
    by_cases h : ciMatchHead pat [] = true
    · simp only [striposFind, if_pos h, Option.isSome_some, true_iff]
      exact ⟨0, ciMatchHead_iff.mp h⟩
    · simp only [striposFind, if_neg h, Option.isSome_none,
        Bool.false_eq_true, false_iff, OccursCI]
      intro ⟨i, hi⟩
      exact h (ciMatchHead_iff.mpr (by simpa using hi))
  | cons c t ih =>
    by_cases h : ciMatchHead pat (c :: t) = true
    · simp only [striposFind, if_pos h, Option.isSome_some, true_iff]
      exact ⟨0, by simpa using ciMatchHead_iff.mp h⟩
    · have hmap : (Option.map (fun n => n + 1) (striposFind pat t)).isSome
          = (striposFind pat t).isSome := by
        cases striposFind pat t <;> rfl
      simp only [striposFind, if_neg h, hmap]
      rw [ih]
      constructor
      · intro ⟨i, hi⟩
        exact ⟨i + 1, by simpa using hi⟩
      · intro ⟨i, hi⟩
        match i with
        | 0 =>
          exact absurd (ciMatchHead_iff.mpr (by simpa using hi)) h
        | i + 1 =>
          exact ⟨i, by simpa using hi⟩

lemma containsCIB_iff {pat s : Str} : containsCIB pat s = true ↔ OccursCI pat s := by
  rw [containsCIB, striposFind_isSome_iff]

lemma foldl_appendRecord : ∀ (l : List Str) (acc : List ApiRecord),
    l.foldl appendRecord acc = acc ++ l.filterMap lineToRecord := by
  intro l
  induction l with
  | nil => intro acc; simp
  | cons x t ih =>
    intro acc
    cases h : lineToRecord x with
    | none => simp [List.foldl_cons, appendRecord, h, ih, List.filterMap_cons]
    | some r => simp [List.foldl_cons, appendRecord, h, ih, List.filterMap_cons]

lemma normalizeFrom_get? : ∀ (rs : List ApiRecord) (i j : Nat),
    (normalizeFrom i rs).get? j = (rs.get? j).map (fun r => transformRecord r (i + j)) := by
  intro rs
  induction rs with
  | nil => intro i j; simp [normalizeFrom]
  | cons r t ih =>
    intro i j
    match j with
    | 0 => simp [normalizeFrom]
    | j + 1 =>
      have e : i + 1 + j = i + (j + 1) := by omega
      simp only [normalizeFrom, List.get?, ih (i + 1) j, e]

lemma normalizeFrom_length : ∀ (rs : List ApiRecord) (i : Nat),
    (normalizeFrom i rs).length = rs.length := by
  intro rs
  induction rs with
  | nil => intro i; rfl
  | cons r t ih => intro i; simp [normalizeFrom, ih]

end TF

namespace TF

lemma digit_not_sign {c : Char} (h : isDigitC c = true) :
    (c = '+' || c = '-' || c = '±') = false := by
  have h1 : c ≠ '+' := digit_ne_of_code h (by decide)
  have h2 : c ≠ '-' := digit_ne_of_code h (by decide)
  have h3 : c ≠ '±' := digit_ne_of_code h (by decide)
  simp [h1, h2, h3]

lemma dot_not_sign : (('.' : Char) = '+' || ('.' : Char) = '-' || ('.' : Char) = '±') = false := by
  decide

lemma stripSign_cons_sign {c : Char} {t : Str}
    (h : (c = '+' || c = '-' || c = '±') = true) : stripSign (c :: t) = t := by
  simp [stripSign, h]

lemma stripSign_cons_not_sign {c : Char} {t : Str}
    (h : (c = '+' || c = '-' || c = '±') = false) : stripSign (c :: t) = c :: t := by
  simp [stripSign, h]

lemma stripSign_decomp (s : Str) :
    ∃ sgn, (sgn = [] ∨ sgn = ['+'] ∨ sgn = ['-'] ∨ sgn = ['±']) ∧
      s = sgn ++ stripSign s := by
  cases s with
  | nil => exact ⟨[], Or.inl rfl, rfl⟩
  | cons c t =>
    by_cases hc : (c = '+' || c = '-' || c = '±') = true
    · rw [stripSign_cons_sign hc]
      rcases (by simpa using hc : (c = '+' ∨ c = '-') ∨ c = '±') with (e | e) | e
      · exact ⟨['+'], by simp, by rw [e]; rfl⟩
      · exact ⟨['-'], by simp, by rw [e]; rfl⟩
      · exact ⟨['±'], by simp, by rw [e]; rfl⟩
    · rw [stripSign_cons_not_sign (by simpa using hc)]
      exact ⟨[], Or.inl rfl, rfl⟩

lemma windPatB_iff (s : Str) : windPatB s = true ↔ WindPatSpec s := by
  constructor
  · intro h
    obtain ⟨sgn, hsgn, hseq⟩ := stripSign_decomp s
    simp only [windPatB] at h
    cases hdw : (stripSign s).dropWhile isDigitC with
    | nil =>
      rw [hdw] at h
      have hall : ∀ c ∈ stripSign s, isDigitC c = true :=
        List.dropWhile_eq_nil_iff.mp hdw
      have htw : (stripSign s).takeWhile isDigitC = stripSign s := takeWhile_all hall
      rw [htw] at h
      have hne : stripSign s ≠ [] := by
        intro e
        rw [e] at h
        simp at h
      exact ⟨sgn, [], stripSign s, hsgn, by simp, hne, hall, Or.inl hseq⟩
    | cons c2 t2 =>
      rw [hdw] at h
      simp only [Bool.and_eq_true, beq_iff_eq, Bool.not_eq_eq_eq_not,
        Bool.not_true, List.all_eq_true] at h
      obtain ⟨hc2, ht2ne, ht2⟩ := h
      subst hc2
      have hsplit : stripSign s =
          ((stripSign s).takeWhile isDigitC) ++ '.' :: t2 := by
        conv_lhs => rw [← List.takeWhile_append_dropWhile (p := isDigitC) (l := stripSign s)]
        rw [hdw]
      refine ⟨sgn, (stripSign s).takeWhile isDigitC, t2, hsgn,
        fun c hc => List.mem_takeWhile_imp hc, ?_, fun c hc => ht2 c hc, Or.inr ?_⟩
      · intro e
        rw [e] at ht2ne
        simp at ht2ne
      · conv_lhs => rw [hseq, hsplit]
        simp
  · intro ⟨sgn, ds1, ds2, hsgn, h1, hne, h2, hshape⟩
    have hds2head : ∀ t, ds2 ≠ [] →
        (∀ c ∈ ds2, isDigitC c = true) → stripSign (ds2 ++ t) = ds2 ++ t := by
      intro t hn hd
      obtain ⟨c, cs, rfl⟩ := List.exists_cons_of_ne_nil hn
      exact stripSign_cons_not_sign (digit_not_sign (hd c (List.mem_cons_self c cs)))
    have hbody : ∀ body : Str, s = sgn ++ body →
        (∀ c t, body = c :: t → (c = '+' || c = '-' || c = '±') = false) →
        stripSign s = body := by
      intro body hb hhead
      rcases hsgn with e | e | e | e <;> subst e
      · cases body with
        | nil =>
          rw [show s = ([] : Str) by simpa using hb]
          rfl
        | cons c t =>
          simp only [List.nil_append] at hb
          rw [hb, stripSign_cons_not_sign (hhead c t rfl)]
      all_goals
        rw [hb]
        exact stripSign_cons_sign (by decide)
    rcases hshape with hs2 | hs2
    · have hstrip : stripSign s = ds2 := by
        apply hbody ds2 hs2
        intro c t he
        exact digit_not_sign (h2 c (he ▸ List.mem_cons_self c t))
      simp only [windPatB, hstrip, dropWhile_all h2, takeWhile_all h2]
      simpa using hne
    · have hstrip : stripSign s = ds1 ++ '.' :: ds2 := by
        apply hbody _ (by rw [hs2, List.append_assoc])
        intro c t he
        cases ds1 with
        | nil =>
          simp only [List.nil_append, List.cons.injEq] at he
          rw [← he.1]
          exact dot_not_sign
        | cons d ds =>
          simp only [List.cons_append, List.cons.injEq] at he
          rw [← he.1]
          exact digit_not_sign (h1 d (List.mem_cons_self d ds))
      have hdw : (stripSign s).dropWhile isDigitC = '.' :: ds2 := by
        rw [hstrip, List.dropWhile_append_of_pos h1, List.dropWhile_cons,
          show isDigitC '.' = false by decide]
        simp
      simp only [windPatB, hdw]
      simp only [Bool.and_eq_true, beq_iff_eq, true_and, Bool.not_eq_eq_eq_not,
        Bool.not_true, List.all_eq_true]
      exact ⟨by simpa using hne, h2⟩

end TF

namespace TF

lemma phpEmpty_false_iff {x : Str} :
    phpEmpty x = false ↔ (x ≠ [] ∧ x ≠ ['0']) := by
  cases x <;> simp [phpEmpty]

lemma phpEmpty_true_cases {x : Str} (h : phpEmpty x = true) :
    x = [] ∨ x = ['0'] := by
  cases x <;> simp_all [phpEmpty]

lemma startsNoise_false_iff {x : Str} :
    startsNoise x = false ↔ (∀ c t, x = c :: t → c ∉ noiseChars) := by
  cases x with
  | nil => simp [startsNoise]
  | cons c t =>
    simp only [startsNoise, decide_eq_false_iff_not]
    constructor
    · intro h c' t' he
      rw [← (List.cons.injEq c t c' t').mp he |>.1]
      exact h
    · intro h
      exact h c t rfl

lemma allDigits1_true_iff {x : Str} :
    allDigits1 x = true ↔ (x ≠ [] ∧ ∀ c ∈ x, isDigitC c = true) := by
  cases x <;> simp [allDigits1, List.all_eq_true]

lemma bool_not_true {b : Bool} (h : ¬ b = true) : b = false := by
  cases b
  · rfl
  · exact absurd rfl h

lemma lineToRecord_isSome_iff (l : Str) :
    (lineToRecord l).isSome = true ↔ AcceptSpec l := by
  unfold lineToRecord AcceptSpec
  by_cases hA : phpEmpty (phpTrim l) = true
  · simp only [hA, if_true, Option.isSome_none, Bool.false_eq_true, false_iff]
    intro ⟨h1, h2, _⟩
    rcases phpEmpty_true_cases hA with e | e
    · exact h1 e
    · exact h2 e
  · have hA' := bool_not_true hA
    obtain ⟨hne, hne0⟩ := phpEmpty_false_iff.mp hA'
    simp only [hA', Bool.false_eq_true, if_false]
    by_cases hB : startsNoise (phpTrim l) = true
    · simp only [hB, if_true, Option.isSome_none, Bool.false_eq_true, false_iff]
      intro ⟨_, _, h3, _⟩
      obtain ⟨c, t, he⟩ := List.exists_cons_of_ne_nil hne
      have hmem : c ∈ noiseChars := by
        rw [he] at hB
        simpa [startsNoise] using hB
      exact h3 c t he hmem
    · have hB' := bool_not_true hB
      simp only [hB', Bool.false_eq_true, if_false]
      by_cases hC1 : containsCIB (str "indoor") (phpTrim l) = true
      · simp only [hC1, if_true, Option.isSome_none, Bool.false_eq_true, false_iff]
        intro ⟨_, _, _, h4, _⟩
        exact h4 (containsCIB_iff.mp hC1)
      · have hC1' := bool_not_true hC1
        simp only [hC1', Bool.false_eq_true, if_false]
        by_cases hC2 : containsCIB (str "oversized") (phpTrim l) = true
        · simp only [hC2, if_true, Option.isSome_none, Bool.false_eq_true, false_iff]
          intro ⟨_, _, _, _, h5, _⟩
          exact h5 (containsCIB_iff.mp hC2)
        · have hC2' := bool_not_true hC2
          simp only [hC2', Bool.false_eq_true, if_false]
          by_cases hC3 : containsCIB (str "intermediate") (phpTrim l) = true
          · simp only [hC3, if_true, Option.isSome_none, Bool.false_eq_true, false_iff]
            intro ⟨_, _, _, _, _, h6, _⟩
            exact h6 (containsCIB_iff.mp hC3)
          · have hC3' := bool_not_true hC3
            simp only [hC3', Bool.false_eq_true, if_false]
            have hocc1 : ¬ OccursCI (str "indoor") (phpTrim l) := fun o =>
              hC1 (containsCIB_iff.mpr o)
            have hocc2 : ¬ OccursCI (str "oversized") (phpTrim l) := fun o =>
              hC2 (containsCIB_iff.mpr o)
            have hocc3 : ¬ OccursCI (str "intermediate") (phpTrim l) := fun o =>
              hC3 (containsCIB_iff.mpr o)
            by_cases hD : 8 ≤ (lineTokens l).length
            · simp only [hD, if_true]
              by_cases hE : allDigits1 (phpTrim ((lineTokens l).getD 0 [])) = true
              · simp only [hE, if_true, Option.isSome_some, true_iff]
                obtain ⟨hp0, hdig⟩ := allDigits1_true_iff.mp hE
                exact ⟨hne, hne0, startsNoise_false_iff.mp hB', hocc1, hocc2,
                  hocc3, trivial, hp0, hdig⟩
              · have hE' := bool_not_true hE
                simp only [hE', Bool.false_eq_true, if_false, Option.isSome_none,
                  false_iff]
                intro ⟨_, _, _, _, _, _, _, hp0, hdig⟩
                exact hE (allDigits1_true_iff.mpr ⟨hp0, hdig⟩)
            · simp only [hD, if_false, Option.isSome_none, Bool.false_eq_true,
                false_iff]
              intro ⟨_, _, _, _, _, _, h7, _⟩
              exact h7

end TF

namespace TF

/-- C1: the claim states that the normalizer assigns each normalized record
a stable numeric `id` equal to its sequence position.  In the code,
`transformRecord` (src/services/api.ts lines 79-106) returns an object with
exactly the thirteen listed properties and no `id` at all, and the
`AthleteRecord` interface declares no `id` field, even though the UI
components join selection/highlight state on `record.id`.  This theorem
documents the divergence: `"id"` is not among the produced fields. -/
theorem c1_transform_assigns_no_id : "id" ∉ transformRecordFields := by
  decide

/-- C2 counterexample: `31.01.2000` denotes an earlier calendar date than
`01.02.2000` in the same year, yet both map to the same ordinal 720061
(`2000*360 + 1*30 + 31 = 2000*360 + 2*30 + 1`), so the claimed strict
inequality `dateOrdinal(A) < dateOrdinal(B)` is false. -/
theorem c2_strict_monotonicity_counterexample :
    dateEarlierSameYear 31 1 1 2 ∧
    parseDateToDays (str "31.01.2000") = some 720061 ∧
    parseDateToDays (str "01.02.2000") = some 720061 :=
  ⟨Or.inl (by norm_num), by decide, by decide⟩

/-- C2 (amended): for well-formed `DD.MM.YYYY` dates `A` earlier than `B`
within the same year, the ordinal is monotone in the non-strict sense:
`dateOrdinal(A) ≤ dateOrdinal(B)` (equality is possible across a month
boundary, e.g. the 31st against the 1st of the next month). -/
theorem c2_date_ordinal_monotone_nonstrict
    (d1 m1 d2 m2 y : Str)
    (hd1 : d1 ≠ []) (hd1d : ∀ c ∈ d1, isDigitC c = true)
    (hm1 : m1 ≠ []) (hm1d : ∀ c ∈ m1, isDigitC c = true)
    (hd2 : d2 ≠ []) (hd2d : ∀ c ∈ d2, isDigitC c = true)
    (hm2 : m2 ≠ []) (hm2d : ∀ c ∈ m2, isDigitC c = true)
    (hy : y ≠ []) (hyd : ∀ c ∈ y, isDigitC c = true)
    (hd1lo : 1 ≤ digitsToNat d1) (hd1hi : digitsToNat d1 ≤ 31)
    (hm1lo : 1 ≤ digitsToNat m1) (hm1hi : digitsToNat m1 ≤ 12)
    (hd2lo : 1 ≤ digitsToNat d2) (hd2hi : digitsToNat d2 ≤ 31)
    (hm2lo : 1 ≤ digitsToNat m2) (hm2hi : digitsToNat m2 ≤ 12)
    (hearlier : dateEarlierSameYear (digitsToNat d1) (digitsToNat m1)
      (digitsToNat d2) (digitsToNat m2)) :
    ∃ a b : Int,
      parseDateToDays (d1 ++ '.' :: m1 ++ '.' :: y) = some a ∧
      parseDateToDays (d2 ++ '.' :: m2 ++ '.' :: y) = some b ∧
      a ≤ b := by
  refine ⟨_, _, parseDateToDays_digits hd1 hd1d hm1 hm1d hy hyd,
    parseDateToDays_digits hd2 hd2d hm2 hm2d hy hyd, ?_⟩
  have he := hearlier
  unfold dateEarlierSameYear at he
  rcases he with h | ⟨he, h⟩ <;> omega

/-- C2 witness: the amended monotonicity applied to the concrete pair
`15.01.2000` and `10.02.2000`. -/
theorem c2_date_ordinal_monotone_witness :
    ∃ a b : Int,
      parseDateToDays (str "15" ++ '.' :: str "01" ++ '.' :: str "2000") = some a ∧
      parseDateToDays (str "10" ++ '.' :: str "02" ++ '.' :: str "2000") = some b ∧
      a ≤ b :=
  c2_date_ordinal_monotone_nonstrict (str "15") (str "01") (str "10") (str "02")
    (str "2000") (by decide) (by decide) (by decide) (by decide) (by decide)
    (by decide) (by decide) (by decide) (by decide) (by decide) (by decide)
    (by decide) (by decide) (by decide) (by decide) (by decide) (by decide)
    (by decide) (Or.inl (by decide))

/-- C3 counterexample: `"a.b.c"` is a malformed date string with three
`.`-parts; `parseDateToDays` returns `NaN` on it (modelled as `none`), not
`0`, refuting the claim that every malformed date string yields 0. -/
theorem c3_malformed_three_part_counterexample :
    parseDateToDays (str "a.b.c") = none ∧
    parseDateToDays (str "a.b.c") ≠ some 0 ∧
    (splitCh '.' (str "a.b.c")).length = 3 := by
  refine ⟨by decide, by decide, by decide⟩

/-- C3 (amended): for well-formed `DD.MM.YYYY` digit strings the result is
`year*360 + month*30 + day`; the empty string and every string that does
not split into exactly three `.`-parts yield 0 (without throwing); a
three-part string with a non-numeric part (any of the three parts failing
to parse) yields `NaN`. -/
theorem c3_date_ordinal_amended :
    (∀ d m y : Str, d ≠ [] → (∀ c ∈ d, isDigitC c = true) →
      m ≠ [] → (∀ c ∈ m, isDigitC c = true) →
      y ≠ [] → (∀ c ∈ y, isDigitC c = true) →
      parseDateToDays (d ++ '.' :: m ++ '.' :: y) =
        some ((digitsToNat y : Int) * 360 + (digitsToNat m : Int) * 30 +
          (digitsToNat d : Int))) ∧
    (∀ s : Str, (splitCh '.' s).length ≠ 3 → parseDateToDays s = some 0) ∧
    (∀ s : Str, (splitCh '.' s).length = 3 →
      (jsParseInt ((splitCh '.' s).getD 0 []) = none ∨
       jsParseInt ((splitCh '.' s).getD 1 []) = none ∨
       jsParseInt ((splitCh '.' s).getD 2 []) = none) →
      parseDateToDays s = none) ∧
    parseDateToDays (str "") = some 0 ∧
    parseDateToDays (str "not-a-date") = some 0 := by
  refine ⟨?_, ?_, ?_, by decide, by decide⟩
  · intro d m y hd0 hd hm0 hm hy0 hy
    exact parseDateToDays_digits hd0 hd hm0 hm hy0 hy
  · intro s h
    by_cases he : s.isEmpty
    · simp [parseDateToDays, he]
    · simp [parseDateToDays, he, h]
  · intro s h3 hfail
    have hne : s.isEmpty = false := by
      cases s with
      | nil => simp [splitCh] at h3
      | cons c t => rfl
    rcases e0 : jsParseInt ((splitCh '.' s).getD 0 []) with _ | v0 <;>
      rcases e1 : jsParseInt ((splitCh '.' s).getD 1 []) with _ | v1 <;>
        rcases e2 : jsParseInt ((splitCh '.' s).getD 2 []) with _ | v2 <;>
          simp only [parseDateToDays, hne, Bool.false_eq_true, if_false, h3,
            e0, e1, e2] <;>
          simp_all

/-- C3 witness: the amended statement applied to the well-formed date
`16.08.2009` and to the empty string. -/
theorem c3_date_ordinal_amended_witness :
    parseDateToDays (str "16" ++ '.' :: str "08" ++ '.' :: str "2009") =
      some ((digitsToNat (str "2009") : Int) * 360 +
        (digitsToNat (str "08") : Int) * 30 + (digitsToNat (str "16") : Int)) ∧
    parseDateToDays (str "") = some 0 :=
  ⟨c3_date_ordinal_amended.1 (str "16") (str "08") (str "2009")
    (by decide) (by decide) (by decide) (by decide) (by decide) (by decide),
   c3_date_ordinal_amended.2.2.2.1⟩

/-- C4 counterexample: `"a:b:c"` splits into three parts whose numeric
content is unparseable; the result is `NaN` (modelled as `none`), not `0`,
refuting the claim that every unparseable time string yields 0. -/
theorem c4_unparseable_three_part_counterexample :
    parseTimeToSeconds (str "a:b:c") = none ∧
    parseTimeToSeconds (str "a:b:c") ≠ some 0 := by
  refine ⟨by decide, by decide⟩

/-- C4 (amended): splitting on `:`, three parts give
`hours*3600 + minutes*60 + seconds` and two parts give
`minutes*60 + seconds` when the components parse (`NaN` when a component
is unparseable); otherwise the raw float value of the whole string, where
unparseable numeric content yields 0; and the round-trip examples
`"2:04:15.6" = 7455.6`, `"9.58" = 9.58`, `"44.72" = 44.72` hold. -/
theorem c4_time_parse_amended :
    (∀ s : Str, parseTimeToSeconds s = timeSpecAmended s) ∧
    parseTimeToSeconds (str "2:04:15.6") = some (37278 / 5) ∧
    parseTimeToSeconds (str "9.58") = some (479 / 50) ∧
    parseTimeToSeconds (str "44.72") = some (1118 / 25) ∧
    parseTimeToSeconds (str "abc") = some 0 := by
  refine ⟨?_, ?_, ?_, ?_, by decide⟩
  · intro s
    rcases hsplit : splitCh ':' s with _ | ⟨a, _ | ⟨b, _ | ⟨c, _ | rest⟩⟩⟩ <;>
      simp [parseTimeToSeconds, timeSpecAmended, hsplit]
  · have h : parseTimeToSeconds (str "2:04:15.6") =
        some (((2 : Int) : ℚ) * 3600 + ((4 : Int) : ℚ) * 60 + mkRat 156 10) := by
      rfl
    rw [h, show (mkRat 156 10 : ℚ) = 78 / 5 by rw [Rat.mkRat_eq_div]; norm_num]
    norm_num
  · have h : parseTimeToSeconds (str "9.58") = some (mkRat 958 100) := by rfl
    rw [h, show (mkRat 958 100 : ℚ) = 479 / 50 by rw [Rat.mkRat_eq_div]; norm_num]
  · have h : parseTimeToSeconds (str "44.72") = some (mkRat 4472 100) := by rfl
    rw [h, show (mkRat 4472 100 : ℚ) = 1118 / 25 by rw [Rat.mkRat_eq_div]; norm_num]

end TF

namespace TF

/-- C5 counterexample: the claimed "exactly 8-or-9 valid tokens with a
numeric first token" characterisation fails in both directions.  The first
line tokenizes into 9 tokens with an all-digit first token but is rejected
because it contains the noise keyword `indoor` (in "Indoor Arena"); the
second line has 10 tokens and is nevertheless accepted. -/
theorem c5_token_characterisation_counterexample :
    lineToRecord
      (str "1  9.58  +0.9  Usain Bolt  JAM  21.08.86  1  Indoor Arena  16.08.09") = none ∧
    (lineTokens
      (str "1  9.58  +0.9  Usain Bolt  JAM  21.08.86  1  Indoor Arena  16.08.09")).length = 9 ∧
    allDigits1 (phpTrim ((lineTokens
      (str "1  9.58  +0.9  Usain Bolt  JAM  21.08.86  1  Indoor Arena  16.08.09")).getD 0 [])) = true ∧
    (lineToRecord
      (str "1  9.58  +0.9  Usain Bolt  JAM  21.08.86  1  Berlin  16.08.09  extra")).isSome = true ∧
    (lineTokens
      (str "1  9.58  +0.9  Usain Bolt  JAM  21.08.86  1  Berlin  16.08.09  extra")).length = 10 := by
  refine ⟨by decide, by decide, by decide, by decide, by decide⟩

/-- C5 (amended): a line yields exactly one raw record if and only if the
trimmed line is nonempty and not the literal `"0"`, does not start with
one of `+ # * = -`, contains no case-insensitive occurrence of `indoor`,
`oversized` or `intermediate`, tokenizes into at least 8 tokens (not just
8 or 9), and the first token is a nonempty all-digit string. -/
theorem c5_line_acceptance_amended (l : Str) :
    (lineToRecord l).isSome = true ↔ AcceptSpec l :=
  lineToRecord_isSome_iff l

/-- C6: for every accepted token sequence, the record has a wind reading
exactly when it has at least 9 tokens, the (trimmed) third token matches
"optional sign, optional integer part, optional decimal point, digits",
and the parsed magnitude is at most 10; wind presence shifts the remaining
field indices by one. -/
theorem c6_wind_detection (parts : List Str) (h8 : 8 ≤ parts.length) :
    (hasWind parts = true ↔
      (9 ≤ parts.length ∧ WindPatSpec (phpTrim (parts.getD 2 [])) ∧
        |phpFloatval (stripNonNum (phpTrim (parts.getD 2 [])))| ≤ 10)) ∧
    (hasWind parts = true →
      (mkRecord parts).wind = phpTrim (parts.getD 2 []) ∧
      (mkRecord parts).athlete = phpTrim (parts.getD 3 []) ∧
      (mkRecord parts).country = phpTrim (parts.getD 4 []) ∧
      (mkRecord parts).dob = phpTrim (parts.getD 5 []) ∧
      (mkRecord parts).position = phpTrim (parts.getD 6 []) ∧
      (mkRecord parts).location = phpTrim (parts.getD 7 []) ∧
      (mkRecord parts).date = phpTrim (parts.getD 8 [])) ∧
    (hasWind parts = false →
      (mkRecord parts).wind = [] ∧
      (mkRecord parts).athlete = phpTrim (parts.getD 2 []) ∧
      (mkRecord parts).country = phpTrim (parts.getD 3 []) ∧
      (mkRecord parts).dob = phpTrim (parts.getD 4 []) ∧
      (mkRecord parts).position = phpTrim (parts.getD 5 []) ∧
      (mkRecord parts).location = phpTrim (parts.getD 6 []) ∧
      (mkRecord parts).date = phpTrim (parts.getD 7 [])) := by
  refine ⟨?_, ?_, ?_⟩
  · simp only [hasWind, Bool.and_eq_true, decide_eq_true_eq, windPatB_iff,
      and_assoc]
  · intro h
    simp only [mkRecord, h, if_true]
    norm_num
  · intro h
    simp only [mkRecord, h, Bool.false_eq_true, if_false]
    norm_num

/-- C6 witness: the spec's own example token sequence (9 tokens,
`parts[2] = "+0.9"`) is classified as having wind, with
athlete `"Usain Bolt"`; the wind condition of the characterisation holds. -/
theorem c6_wind_detection_witness :
    hasWind [str "1", str "9.58", str "+0.9", str "Usain Bolt", str "JAM",
      str "21.08.86", str "1", str "Berlin", str "16.08.09"] = true ∧
    (mkRecord [str "1", str "9.58", str "+0.9", str "Usain Bolt", str "JAM",
      str "21.08.86", str "1", str "Berlin", str "16.08.09"]).wind = str "+0.9" ∧
    (mkRecord [str "1", str "9.58", str "+0.9", str "Usain Bolt", str "JAM",
      str "21.08.86", str "1", str "Berlin", str "16.08.09"]).athlete = str "Usain Bolt" := by
  have h := c6_wind_detection [str "1", str "9.58", str "+0.9", str "Usain Bolt",
    str "JAM", str "21.08.86", str "1", str "Berlin", str "16.08.09"] (by decide)
  have hW : hasWind [str "1", str "9.58", str "+0.9", str "Usain Bolt", str "JAM",
      str "21.08.86", str "1", str "Berlin", str "16.08.09"] = true := by decide
  obtain ⟨w, a, -⟩ := h.2.1 hW
  exact ⟨hW, w.trans (by decide), a.trans (by decide)⟩

/-- C7: for a birth date in `DD.MM.YY` form (two-digit year of digit
characters), the normalizer resolves the century by the rule
`YY > 30 → 1900+YY`, otherwise `2000+YY`, rendering the resolved year back
into the date string. -/
theorem c7_century_resolution (dd mm : Str) (y1 y2 : Char)
    (hdd : '.' ∉ dd) (hm : '.' ∉ mm)
    (h1 : isDigitC y1 = true) (h2 : isDigitC y2 = true) :
    resolveDob (dd ++ '.' :: mm ++ '.' :: [y1, y2]) =
      dd ++ '.' :: mm ++ '.' ::
        intToChars (if 30 < (digitsToNat [y1, y2] : Int)
          then 1900 + (digitsToNat [y1, y2] : Int)
          else 2000 + (digitsToNat [y1, y2] : Int)) := by
  have hy : ∀ c ∈ [y1, y2], isDigitC c = true := by
    intro c hc
    simp only [List.mem_cons, List.mem_singleton, List.not_mem_nil, or_false] at hc
    rcases hc with rfl | rfl
    · exact h1
    · exact h2
  have hsplit : splitCh '.' (dd ++ '.' :: mm ++ '.' :: [y1, y2]) = [dd, mm, [y1, y2]] := by
    rw [show (dd ++ '.' :: mm ++ '.' :: [y1, y2]) = dd ++ '.' :: (mm ++ '.' :: [y1, y2]) by simp,
      splitCh_append hdd, splitCh_append hm, splitCh_eq_single (not_dot_mem_of_digits hy)]
  simp only [resolveDob, hsplit, List.length_cons, List.length_nil,
    jsParseInt_digits (by simp) hy]
  norm_num

/-- C7 witness: `"21.08.86"` resolves to `"21.08.1986"` and `"15.03.05"`
resolves to `"15.03.2005"`. -/
theorem c7_century_resolution_witness :
    resolveDob (str "21" ++ '.' :: str "08" ++ '.' :: ['8', '6']) = str "21.08.1986" ∧
    resolveDob (str "15" ++ '.' :: str "03" ++ '.' :: ['0', '5']) = str "15.03.2005" :=
  ⟨(c7_century_resolution (str "21") (str "08") '8' '6'
      (by decide) (by decide) (by decide) (by decide)).trans (by decide),
   (c7_century_resolution (str "15") (str "03") '0' '5'
      (by decide) (by decide) (by decide) (by decide)).trans (by decide)⟩

/-- C8 counterexample: the rank string `"0"` parses as the integer 0, yet
the normalized rank is the fallback `sequenceIndex + 1 = 5` (JavaScript
`parseInt(rank) || index + 1` treats 0 as falsy), so "equals the parse
whenever the string parses as an integer" is false. -/
theorem c8_rank_zero_counterexample :
    jsParseInt (str "0") = some 0 ∧
    (transformRecord ⟨str "0", [], [], [], [], [], [], [], []⟩ 4).rank = 5 := by
  refine ⟨by decide, by decide⟩

/-- C8 (amended): the normalized rank equals the `parseInt` value of the
raw rank string when that value exists and is nonzero, and equals
`sequenceIndex + 1` when the parse fails or yields 0; in particular an
empty rank at sequence index 4 yields rank 5. -/
theorem c8_rank_fallback_amended :
    (∀ (r : ApiRecord) (i : Nat),
      (transformRecord r i).rank =
        match jsParseInt r.rank with
        | some v => if v = 0 then (i : Int) + 1 else v
        | none => (i : Int) + 1) ∧
    (transformRecord ⟨[], [], [], [], [], [], [], [], []⟩ 4).rank = 5 := by
  refine ⟨?_, by decide⟩
  intro r i
  cases h : jsParseInt r.rank <;> simp [transformRecord, jsOrInt, h]

/-- C9: the extractor fails with the no-data-block error exactly when the
markup has no case-insensitive occurrence of `<PRE>`; in that case the
result is a failed value (success = false) with no records — an error
value, not an exception. -/
theorem c9_no_datablock_iff (decode : Str → Str) (html : Str) :
    ((parseHtml decode html).error = some noPreMsg ↔
      ¬ OccursCI (str "<PRE>") html) ∧
    ((parseHtml decode html).success = false ↔
      ¬ OccursCI (str "<PRE>") html) ∧
    (¬ OccursCI (str "<PRE>") html → (parseHtml decode html).records = []) := by
  cases h : striposFind (str "<PRE>") html with
  | none =>
    have hocc : ¬ OccursCI (str "<PRE>") html := by
      rw [← striposFind_isSome_iff]
      simp [h]
    simp [parseHtml, h, hocc]
  | some p =>
    have hocc : OccursCI (str "<PRE>") html := by
      rw [← striposFind_isSome_iff]
      simp [h]
    simp [parseHtml, h, hocc]

/-- C9 witness: on markup with no `<PRE>` marker the extractor reports the
no-data-block error and produces no records. -/
theorem c9_no_datablock_witness :
    (parseHtml id (str "plain text with no marker")).error = some noPreMsg ∧
    (parseHtml id (str "plain text with no marker")).records = [] := by
  have hb : (striposFind (str "<PRE>") (str "plain text with no marker")).isSome = false := by
    decide
  have hocc : ¬ OccursCI (str "<PRE>") (str "plain text with no marker") := by
    rw [← striposFind_isSome_iff, hb]
    simp
  have h := c9_no_datablock_iff id (str "plain text with no marker")
  exact ⟨h.1.mpr hocc, h.2.2 hocc⟩

/-- C10: order is preserved end to end: the records of `parseHtml` are
exactly the order-preserving `filterMap` of the per-line parser over the
extracted candidate lines, and normalization maps the i-th raw record to
the i-th normalized record (same length, index-wise `transformRecord`). -/
theorem c10_order_preservation :
    (∀ (decode : Str → Str) (html : Str) (p : Nat),
      striposFind (str "<PRE>") html = some p →
      (parseHtml decode html).records =
        List.filterMap lineToRecord (splitCh '\n' (decode (sliceAfterPre html p)))) ∧
    (∀ (rs : List ApiRecord) (i : Nat),
      (normalizeAll rs).get? i = (rs.get? i).map (fun r => transformRecord r i)) ∧
    (∀ rs : List ApiRecord, (normalizeAll rs).length = rs.length) := by
  refine ⟨?_, ?_, ?_⟩
  · intro decode html p h
    simp only [parseHtml, h]
    exact (foldl_appendRecord
      (splitCh '\n' (decode (sliceAfterPre html p))) []).trans
      (List.nil_append _)
  · intro rs i
    simpa [normalizeAll] using normalizeFrom_get? rs 0 i
  · intro rs
    exact normalizeFrom_length rs 0

/-- C10 witness: the pipeline applied to a small concrete page (one noise
line, one record line) emits the filterMap of the line parser, and
normalizing a one-record list maps index 0 through `transformRecord`. -/
theorem c10_order_preservation_witness :
    (parseHtml id
      (str "x<PRE>\nnoise\n1  9.58  +0.9  Usain Bolt  JAM  21.08.86  1  Berlin  16.08.09\n</BODY>tail")).records =
      List.filterMap lineToRecord (splitCh '\n' (id (sliceAfterPre
        (str "x<PRE>\nnoise\n1  9.58  +0.9  Usain Bolt  JAM  21.08.86  1  Berlin  16.08.09\n</BODY>tail") 1))) ∧
    (normalizeAll [⟨str "1", str "9.58", str "+0.9", str "Usain Bolt", str "JAM",
        str "21.08.86", str "1", str "Berlin", str "16.08.09"⟩]).get? 0 =
      (([⟨str "1", str "9.58", str "+0.9", str "Usain Bolt", str "JAM",
        str "21.08.86", str "1", str "Berlin", str "16.08.09"⟩] : List ApiRecord).get? 0).map
        (fun r => transformRecord r 0) :=
  ⟨c10_order_preservation.1 id
      (str "x<PRE>\nnoise\n1  9.58  +0.9  Usain Bolt  JAM  21.08.86  1  Berlin  16.08.09\n</BODY>tail")
      1 (by decide),
   c10_order_preservation.2.1 [⟨str "1", str "9.58", str "+0.9", str "Usain Bolt",
      str "JAM", str "21.08.86", str "1", str "Berlin", str "16.08.09"⟩] 0⟩

end TF
